import Mathlib

/-!
# A verification development for the `rustchain` ledger

Shallow embedding of `src/blockchain.rs` (a minimal hash-linked ledger with
an account-balance world state) and proofs about its operations.

Modelling conventions:
* Rust `u128` values are `Nat`s; overflow-relevant arithmetic goes through
  `u128checkedAdd` / `u128checkedSub`, which mirror `u128::checked_add` /
  `u128::checked_sub` with the bound `2 ^ 128`.  The one unchecked `+=`
  (token creation during genesis) is modelled as wrapping addition modulo
  `2 ^ 128`, matching release-mode Rust semantics.
* `HashMap<String, Account>` is modelled as an association list with unique
  keys in every state reachable through the API; lookup returns the first
  matching entry and in-place mutation (`get_mut` followed by a field write)
  rewrites the first matching entry.
* The Blake2b digest is modelled symbolically: a transaction's digest is the
  tuple of fields the Rust code serialises into the hasher, and a block's
  digest is the constructor `BHash.digest` applied to the list of transaction
  digests together with `(prev_hash, unqnum)` — exactly the data absorbed by
  the hasher in `Block::calculate_hash`.  The symbolic digest is injective,
  which is the standard idealisation of a collision-free cryptographic hash.
  `byte_vector_to_string` is the identity under this model (it is an injective
  byte-to-char map in the source, applied to every digest before storage).
* Rust methods taking `&mut self` become functions returning the updated
  state; a method returning `Result<(), String>` while mutating `self`
  becomes a function returning `State × Except String Unit`, so that the
  state left behind by an early `return Err` is visible to theorems.
* `SystemTime::now()` in `Transaction::new` is modelled by passing the
  creation instant explicitly as a `Nat` parameter.
-/

namespace Rustchain

/-- `2 ^ 128`, the modulus of Rust `u128` arithmetic. -/
def U128MOD : Nat := 2 ^ 128

/-- Model of `u128::checked_add`. -/
def u128checkedAdd (a b : Nat) : Option Nat :=
  if a + b < U128MOD then some (a + b) else none

/-- Model of `u128::checked_sub`. -/
def u128checkedSub (a b : Nat) : Option Nat :=
  if b ≤ a then some (a - b) else none

/-- `enum TransactionData` from `blockchain.rs`. -/
inductive TransactionData where
  | CreateUserAccount (id : String)
  | ChangeStoreValue (key : String) (value : String)
  | TransferTokens (to_ : String) (amount : Nat)
  | CreateTokens (receiver : String) (amount : Nat)
deriving DecidableEq, Repr, Inhabited

/-- `enum AccountType` from `blockchain.rs`. -/
inductive AccountType where
  | User
deriving DecidableEq, Repr, Inhabited

/-- `struct Account` from `blockchain.rs`. -/
structure Account where
  store : List (String × String)
  account_type : AccountType
  tokens : Nat
deriving DecidableEq, Repr, Inhabited

/-- `Account::new`. -/
def Account.new (account_type : AccountType) : Account :=
  { tokens := 0, account_type := account_type, store := [] }

/-- `struct Transaction` from `blockchain.rs`; `created_at : SystemTime`
is modelled as a `Nat` instant and the Rust keyword-clashing field `from`
is rendered `from_`. -/
structure Transaction where
  unqnum : Nat
  from_ : String
  created_at : Nat
  record : TransactionData
  signature : Option String
deriving DecidableEq, Repr, Inhabited

/-- `Transaction::new`; the Rust constructor reads `SystemTime::now()`,
modelled here by the explicit `created_at` argument. -/
def Transaction.new (from_ : String) (transaction_data : TransactionData)
    (unqnum : Nat) (created_at : Nat) : Transaction :=
  { from_ := from_, unqnum := unqnum, record := transaction_data,
    created_at := created_at, signature := none }

/-- Symbolic Blake2b digest of a transaction: the tuple
`(created_at, record, from, unqnum)` that `Transaction::calculate_hash`
serialises into the hasher. -/
structure TxHash where
  created_at : Nat
  record : TransactionData
  from_ : String
  unqnum : Nat
deriving DecidableEq, Repr, Inhabited

/-- `Transaction::calculate_hash` under the symbolic digest model. -/
def Transaction.calculate_hash (t : Transaction) : TxHash :=
  { created_at := t.created_at, record := t.record,
    from_ := t.from_, unqnum := t.unqnum }

/-- `Transaction::is_signed`. -/
def Transaction.is_signed (t : Transaction) : Bool :=
  t.signature.isSome

/-- `Transaction::check_signature`: returns `false` when unsigned, and the
verification branch is an unimplemented stub that also returns `false`. -/
def Transaction.check_signature (t : Transaction) : Bool :=
  if !t.is_signed then
    false
  else
    false

/-- Symbolic Blake2b digest of a block: `Block::calculate_hash` absorbs every
transaction's digest in order, then the rendering of `(prev_hash, unqnum)`.
The previous hash is itself (the string form of) a block digest; the
`Option` of the previous hash is unfolded into the two constructors
(`digest0` for `None`, `digest1` for `Some`) so that equality stays
derivable. -/
inductive BHash where
  | digest0 (txs : List TxHash) (unqnum : Int) : BHash
  | digest1 (txs : List TxHash) (prev : BHash) (unqnum : Int) : BHash
deriving DecidableEq, Repr, Inhabited

/-- `struct Block` from `blockchain.rs`; hash strings are represented by
their symbolic digests (`byte_vector_to_string` is injective). -/
structure Block where
  hash : Option BHash
  prev_hash : Option BHash
  unqnum : Int
  transactions : List Transaction
deriving DecidableEq, Repr, Inhabited

/-- `Block::new`. -/
def Block.new (prev_hash : Option BHash) : Block :=
  { unqnum := 0, hash := none, prev_hash := prev_hash, transactions := [] }

/-- `Block::calculate_hash` under the symbolic digest model: the ordered
transaction digests together with `(prev_hash, unqnum)`. -/
def Block.calculate_hash (b : Block) : BHash :=
  match b.prev_hash with
  | none => BHash.digest0 (b.transactions.map Transaction.calculate_hash) b.unqnum
  | some p => BHash.digest1 (b.transactions.map Transaction.calculate_hash) p b.unqnum

/-- `Block::update_hash`. -/
def Block.update_hash (b : Block) : Block :=
  { b with hash := some b.calculate_hash }

/-- `Block::add_transaction`: push, then `update_hash`. -/
def Block.add_transaction (b : Block) (transaction : Transaction) : Block :=
  Block.update_hash { b with transactions := b.transactions ++ [transaction] }

/-- `Block::set_unqnum`: assign, then `update_hash`. -/
def Block.set_unqnum (b : Block) (unqnum : Int) : Block :=
  Block.update_hash { b with unqnum := unqnum }

/-- `Block::get_transaction_count`. -/
def Block.get_transaction_count (b : Block) : Nat :=
  b.transactions.length

/-- `Block::verify_own_hash`: the stored hash is set and equals the freshly
recomputed hash. -/
def Block.verify_own_hash (b : Block) : Bool :=
  match b.hash with
  | some h => h == b.calculate_hash
  | none => false

/-- The account store: `HashMap<String, Account>` as an association list. -/
def AccountMap := List (String × Account)
deriving DecidableEq, Inhabited

/-- `HashMap::get` / `get_account_by_id`: first entry with the given key. -/
def accountsGet (m : AccountMap) (id : String) : Option Account :=
  match List.find? (fun p => p.1 == id) m with
  | some p => some p.2
  | none => none

/-- `HashMap::insert`: replace the entry with the given key, or add one. -/
def accountsInsert : AccountMap → String → Account → AccountMap
  | [], id, acc => [(id, acc)]
  | p :: rest, id, acc =>
    if p.1 == id then (id, acc) :: rest else p :: accountsInsert rest id acc

/-- `get_account_by_id_mut(id).unwrap().tokens = v`: rewrite the tokens of
the first entry with the given key (a no-op when the key is absent, which
the source never does because it unwraps a just-checked lookup). -/
def accountsSetTokens : AccountMap → String → Nat → AccountMap
  | [], _, _ => []
  | p :: rest, id, v =>
    if p.1 == id then (p.1, { p.2 with tokens := v }) :: rest
    else p :: accountsSetTokens rest id v

/-- `struct Blockchain` from `blockchain.rs`. -/
structure Blockchain where
  blocks : List Block
  accounts : AccountMap
  pending_transactions : List Transaction
deriving DecidableEq, Inhabited

/-- `Blockchain::new`. -/
def Blockchain.new : Blockchain :=
  { blocks := [], accounts := [], pending_transactions := [] }

/-- `WorldState::get_account_by_id` as implemented by `Blockchain`. -/
def Blockchain.get_account_by_id (bc : Blockchain) (id : String) : Option Account :=
  accountsGet bc.accounts id

/-- `WorldState::get_user_ids` as implemented by `Blockchain`. -/
def Blockchain.get_user_ids (bc : Blockchain) : List String :=
  bc.accounts.map (fun p => p.1)

/-- A write through `WorldState::get_account_by_id_mut(id).unwrap().tokens = v`. -/
def Blockchain.set_account_tokens (bc : Blockchain) (id : String) (v : Nat) : Blockchain :=
  { bc with accounts := accountsSetTokens bc.accounts id v }

/-- `WorldState::create_account` as implemented by `Blockchain`. -/
def Blockchain.create_account (bc : Blockchain) (id : String)
    (account_type : AccountType) : Blockchain × Except String Unit :=
  if !(bc.get_user_ids.contains id) then
    let acc := Account.new account_type
    ({ bc with accounts := accountsInsert bc.accounts id acc }, Except.ok ())
  else
    (bc, Except.error "User already exists!")

/-- `Transaction::execute` over the `Blockchain` world state.  The returned
pair is the state the Rust `&mut` world state holds when the method returns,
together with the `Result<(), &str>`. -/
def Transaction.execute (t : Transaction) (world_state : Blockchain)
    (is_initial : Bool) : Blockchain × Except String Unit :=
  if (world_state.get_account_by_id t.from_).isNone && !is_initial then
    (world_state, Except.error "Account does not exist")
  else
    match t.record with
    | TransactionData.CreateUserAccount account =>
      world_state.create_account account AccountType.User
    | TransactionData.CreateTokens receiver amount =>
      if !is_initial then
        (world_state, Except.error "Token creation is only available on initial creation")
      else
        match world_state.get_account_by_id receiver with
        | some account =>
          (world_state.set_account_tokens receiver ((account.tokens + amount) % U128MOD),
           Except.ok ())
        | none => (world_state, Except.error "Receiver Account does not exist")
    | TransactionData.TransferTokens to_ amount =>
      match world_state.get_account_by_id to_ with
      | none => (world_state, Except.error "Receiver Account does not exist!")
      | some recv =>
        let recv_tokens := recv.tokens
        match world_state.get_account_by_id t.from_ with
        | none => (world_state, Except.error "That account does not exist!")
        | some sender =>
          let sender_tokens := sender.tokens
          let balance_recv_new := u128checkedAdd recv_tokens amount
          let balance_sender_new := u128checkedSub sender_tokens amount
          if balance_recv_new.isSome && balance_sender_new.isSome then
            let ws1 := world_state.set_account_tokens t.from_ balance_sender_new.get!
            let ws2 := ws1.set_account_tokens to_ balance_recv_new.get!
            (ws2, Except.ok ())
          else
            (world_state, Except.error "Overspent or Arithmetic error")
    | TransactionData.ChangeStoreValue _ _ =>
      (world_state, Except.error "Unknown Transaction type (not implemented)")

/-- The stored hash of the last block of a block list (`None` when empty). -/
def lastBlockHash (blocks : List Block) : Option BHash :=
  match blocks.getLast? with
  | none => none
  | some b => b.hash

/-- `Blockchain::get_last_block_hash`. -/
def Blockchain.get_last_block_hash (bc : Blockchain) : Option BHash :=
  lastBlockHash bc.blocks

/-- The `for (i, transaction) in block.transactions.iter().enumerate()` loop
of `append_block`: execute each transaction against the evolving world
state; on the first failure return the state at the failure together with
the 0-based index and the error of the failing transaction. -/
def Blockchain.execTransactions (bc : Blockchain) (txs : List Transaction)
    (is_genesis : Bool) (i : Nat) : Except (Blockchain × Nat × String) Blockchain :=
  match txs with
  | [] => Except.ok bc
  | t :: rest =>
    match t.execute bc is_genesis with
    | (bc2, Except.ok ()) => bc2.execTransactions rest is_genesis (i + 1)
    | (bc2, Except.error err) => Except.error (bc2, i, err)

/-- `Blockchain::append_block`. -/
def Blockchain.append_block (bc : Blockchain) (block : Block) :
    Blockchain × Except String Unit :=
  let is_genesis := bc.blocks.isEmpty
  if block.prev_hash ≠ bc.get_last_block_hash then
    (bc, Except.error "The new block has to point to the previous block")
  else if block.get_transaction_count = 0 then
    (bc, Except.error "There has to be at least one transactio inside the block!")
  else
    let old_state := bc.accounts
    match bc.execTransactions block.transactions is_genesis 0 with
    | Except.error (bcf, i, err) =>
      ({ bcf with accounts := old_state },
       Except.error s!"Could not execute transaction {i + 1} because of \x27{err}. Rolling back")
    | Except.ok bcs =>
      ({ bcs with blocks := bcs.blocks ++ [block] }, Except.ok ())

/-- The signature loop of `check_validity` for one block. -/
def sigLoop (txs : List Transaction) (block_num : Nat) (transaction_num : Nat) :
    Except String Unit :=
  match txs with
  | [] => Except.ok ()
  | t :: rest =>
    if t.is_signed && !t.check_signature then
      Except.error s!"Transaction #{transaction_num + 1} for Block #{block_num + 1} has an invalid signature"
    else
      sigLoop rest block_num (transaction_num + 1)

/-- The non-genesis linkage check of `check_validity`: `prev` is
`blocks[block_num - 1]`.  Note the source formats the mismatch message with
the 0-based `block_num` while every other message is 1-based. -/
def linkCheck (prev : Block) (block : Block) (block_num : Nat) : Except String Unit :=
  if block.prev_hash.isNone then
    Except.error s!"Block #{block_num + 1} has no previous hash set"
  else
    let prev_hash_proposed := reprStr (Option.get! block.prev_hash)
    let prev_hash_actual := reprStr (Option.get! prev.hash)
    if block.prev_hash ≠ prev.hash then
      Except.error s!"Block #{block_num} is not connected to previous block (Hashes do not match. Should be `{prev_hash_proposed}` but is `{prev_hash_actual}`)"
    else
      Except.ok ()

/-- The body of the `check_validity` loop for blocks with `block_num ≥ 1`;
`prev` is the previous block of the iteration. -/
def checkLoop (prev : Block) (block_num : Nat) : List Block → Except String Unit
  | [] => Except.ok ()
  | block :: rest =>
    if !block.verify_own_hash then
      Except.error s!"Stored hash for Block #{block_num + 1} does not match calculated hash"
    else
      match linkCheck prev block block_num with
      | Except.error e => Except.error e
      | Except.ok () =>
        match sigLoop block.transactions block_num 0 with
        | Except.error e => Except.error e
        | Except.ok () => checkLoop block (block_num + 1) rest

/-- `Blockchain::check_validity` as a function of the block list: the first
iteration (`block_num = 0`) runs the genesis-specific linkage check, later
iterations run `checkLoop`. -/
def checkBlocksList : List Block → Except String Unit
  | [] => Except.ok ()
  | b0 :: rest =>
    if !b0.verify_own_hash then
      Except.error "Stored hash for Block #1 does not match calculated hash"
    else if b0.prev_hash.isSome then
      Except.error "The genesis block has a previous hash set which it shouldn\x27t Code :394823098"
    else
      match sigLoop b0.transactions 0 0 with
      | Except.error e => Except.error e
      | Except.ok () => checkLoop b0 1 rest

/-- `Blockchain::check_validity`. -/
def Blockchain.check_validity (bc : Blockchain) : Except String Unit :=
  checkBlocksList bc.blocks

/-- Folding `append_block` over a list of submitted blocks; `none` when some
append fails. -/
def Blockchain.appendAll (bc : Blockchain) : List Block → Option Blockchain
  | [] => some bc
  | b :: bs =>
    match bc.append_block b with
    | (bc2, Except.ok ()) => bc2.appendAll bs
    | (_, Except.error _) => none

deriving instance DecidableEq for Except

/-! ## Basic lemmas about the embedded operations -/

/-- Whatever a transaction does to the world state, it only ever rewrites the
account map: the Rust `WorldState` implementation of `Blockchain` touches no
other field. -/
theorem execute_fst_eq (t : Transaction) (ws : Blockchain) (g : Bool) :
    ∃ acc, (t.execute ws g).1 = { ws with accounts := acc } := by
  unfold Transaction.execute Blockchain.create_account Blockchain.set_account_tokens
  repeat' split
  all_goals try exact ⟨_, rfl⟩
  all_goals dsimp only
  all_goals split
  all_goals exact ⟨_, rfl⟩

/-- Running a prefix of a block's transactions only rewrites the account map
(success case). -/
theorem execTransactions_ok_fst (txs : List Transaction) (bc bc2 : Blockchain)
    (g : Bool) (i : Nat) (h : bc.execTransactions txs g i = Except.ok bc2) :
    ∃ acc, bc2 = { bc with accounts := acc } := by
  induction txs generalizing bc i with
  | nil =>
    unfold Blockchain.execTransactions at h
    exact ⟨bc.accounts, by cases h; rfl⟩
  | cons t rest ih =>
    unfold Blockchain.execTransactions at h
    rcases he : t.execute bc g with ⟨bcm, r⟩
    rw [he] at h
    cases r with
    | error e => exact absurd h (by simp)
    | ok u =>
      cases u
      obtain ⟨a1, h1⟩ := execute_fst_eq t bc g
      rw [he] at h1
      dsimp only at h1
      obtain ⟨a2, h2⟩ := ih bcm (i + 1) h
      exact ⟨a2, by rw [h2, h1]⟩

/-- Running a prefix of a block's transactions only rewrites the account map
(failure case: the state at the moment of failure). -/
theorem execTransactions_err_fst (txs : List Transaction) (bc bcf : Blockchain)
    (g : Bool) (i j : Nat) (err : String)
    (h : bc.execTransactions txs g i = Except.error (bcf, j, err)) :
    ∃ acc, bcf = { bc with accounts := acc } := by
  induction txs generalizing bc i with
  | nil =>
    unfold Blockchain.execTransactions at h
    exact absurd h (by simp)
  | cons t rest ih =>
    unfold Blockchain.execTransactions at h
    rcases he : t.execute bc g with ⟨bcm, r⟩
    rw [he] at h
    cases r with
    | ok u =>
      cases u
      obtain ⟨a1, h1⟩ := execute_fst_eq t bc g
      rw [he] at h1
      dsimp only at h1
      obtain ⟨a2, h2⟩ := ih bcm (i + 1) h
      exact ⟨a2, by rw [h2, h1]⟩
    | error e =>
      obtain ⟨a1, h1⟩ := execute_fst_eq t bc g
      rw [he] at h1
      dsimp only at h1
      cases h
      exact ⟨a1, h1⟩

/-- Looking up the key just rewritten by `accountsSetTokens` returns the old
account with the new token balance. -/
theorem accountsGet_setTokens (m : AccountMap) (id : String) (v : Nat) :
    accountsGet (accountsSetTokens m id v) id =
      (accountsGet m id).map (fun a => { a with tokens := v }) := by
  induction m with
  | nil => rfl
  | cons p rest ih =>
    by_cases h : p.1 == id
    · simp [accountsSetTokens, accountsGet, List.find?, h]
    · simp only [accountsSetTokens, h]
      simp only [accountsGet, List.find?, h] at ih ⊢
      simpa [Bool.if_false_left] using ih

/-! ## Concrete inputs for witnesses and counterexamples -/

/-- A user account holding `n` tokens. -/
def acctWith (n : Nat) : Account :=
  { store := [], account_type := AccountType.User, tokens := n }

/-- A world state with two funded accounts. -/
def wsJohnMereep : Blockchain :=
  { blocks := [],
    accounts := [("John", acctWith 50), ("Mereep", acctWith 10)],
    pending_transactions := [] }

/-- A world state with one (empty) account. -/
def wsSingleA : Blockchain :=
  { blocks := [], accounts := [("A", Account.new AccountType.User)],
    pending_transactions := [] }

/-- A zero-transaction block whose `prev_hash` is set, submitted to an empty
chain (whose tip hash is `None`). -/
def cexBadLinkBlock : Block :=
  Block.new (some (BHash.digest0 [] 0))

/-- A `CreateTokens` transaction whose sender has no account. -/
def cexGhostCreateTokens : Transaction :=
  Transaction.new "Ghost" (TransactionData.CreateTokens "Ghost" 5) 0 0

/-- A transfer spending more than the sender holds. -/
def txOverspend : Transaction :=
  Transaction.new "John" (TransactionData.TransferTokens "Mereep" 100) 0 0

/-- A self-transfer: sender and receiver identities coincide. -/
def txSelf : Transaction :=
  Transaction.new "John" (TransactionData.TransferTokens "John" 20) 0 1

/-! ## Claim theorems -/

/-- C10: `is_signed()` is true exactly when a signature is present, and
`check_signature()` returns `false` for every transaction (the verification
branch is an unimplemented stub), so signed never implies valid. -/
theorem signature_stub (t : Transaction) :
    t.check_signature = false ∧ t.is_signed = t.signature.isSome :=
  ⟨by simp [Transaction.check_signature], rfl⟩

/-- C9: after every `add_transaction` call and every `set_unqnum` call the
block's stored hash equals its freshly recomputed content hash, so
`verify_own_hash()` returns `true` immediately after either mutation, and
`add_transaction` appends at the end of the transaction sequence,
preserving order. -/
theorem block_hash_invariant (b : Block) (tx : Transaction) (n : Int) :
    (b.add_transaction tx).verify_own_hash = true ∧
    (b.set_unqnum n).verify_own_hash = true ∧
    (b.add_transaction tx).transactions = b.transactions ++ [tx] := by
  refine ⟨?_, ?_, rfl⟩ <;>
    simp [Block.add_transaction, Block.set_unqnum, Block.update_hash,
      Block.verify_own_hash, Block.calculate_hash]

/-- C7: outside genesis, a transaction whose sender identity does not
resolve to an existing account fails with the sender-does-not-exist error
before the payload is inspected — for every payload variant — and the world
state is left unchanged. -/
theorem sender_existence_guard (t : Transaction) (ws : Blockchain)
    (h : ws.get_account_by_id t.from_ = none) :
    t.execute ws false = (ws, Except.error "Account does not exist") := by
  simp [Transaction.execute, h]

/-- Witness for `sender_existence_guard` at a concrete input. -/
theorem sender_existence_guard_witness :
    (Transaction.new "Ghost" (TransactionData.ChangeStoreValue "k" "v") 0 0).execute
        Blockchain.new false =
      (Blockchain.new, Except.error "Account does not exist") :=
  sender_existence_guard _ _ (by decide)

/-- C5 (amended): a block whose `prev_hash` differs from the current tip
hash is always rejected with the linkage error; a block with zero
transactions that passes the linkage check is rejected with the empty-block
error; in both cases the state (blocks and accounts) is returned
unchanged. -/
theorem append_block_rejects_malformed (bc : Blockchain) (block : Block) :
    (block.prev_hash ≠ bc.get_last_block_hash →
      bc.append_block block =
        (bc, Except.error "The new block has to point to the previous block")) ∧
    (block.prev_hash = bc.get_last_block_hash → block.get_transaction_count = 0 →
      bc.append_block block =
        (bc, Except.error "There has to be at least one transactio inside the block!")) := by
  constructor
  · intro h
    simp [Blockchain.append_block, h]
  · intro h1 h2
    simp [Blockchain.append_block, h1, h2]

/-- Counterexample for C5 as stated: a block with zero transactions whose
linkage is also wrong fails with the linkage error, not the empty-block
error. -/
theorem append_block_rejects_malformed_cex :
    Blockchain.new.append_block cexBadLinkBlock =
      (Blockchain.new, Except.error "The new block has to point to the previous block") ∧
    "The new block has to point to the previous block" ≠
      "There has to be at least one transactio inside the block!" :=
  ⟨by decide, by decide⟩

/-- Witness for `append_block_rejects_malformed`: the empty-block branch at
a concrete input whose linkage is correct. -/
theorem append_block_rejects_malformed_witness :
    Blockchain.new.append_block (Block.new none) =
      (Blockchain.new, Except.error "There has to be at least one transactio inside the block!") :=
  (append_block_rejects_malformed Blockchain.new (Block.new none)).2 (by decide) (by decide)

/-- C6 (amended): a `CreateTokens` transaction executed outside genesis
always fails and leaves the state unchanged; the error is the
token-creation-only-during-genesis error whenever the sender account
exists (when it does not, the sender-existence guard fails first). -/
theorem create_tokens_outside_genesis (t : Transaction) (ws : Blockchain)
    (receiver : String) (amount : Nat)
    (hrec : t.record = TransactionData.CreateTokens receiver amount) :
    (∃ e, t.execute ws false = (ws, Except.error e)) ∧
    ((ws.get_account_by_id t.from_).isSome →
      t.execute ws false =
        (ws, Except.error "Token creation is only available on initial creation")) := by
  cases h : ws.get_account_by_id t.from_ with
  | none =>
    constructor
    · exact ⟨"Account does not exist", by simp [Transaction.execute, h]⟩
    · intro hs
      simp at hs
  | some a =>
    have hrun : t.execute ws false =
        (ws, Except.error "Token creation is only available on initial creation") := by
      simp [Transaction.execute, h, hrec]
    exact ⟨⟨_, hrun⟩, fun _ => hrun⟩

/-- Counterexample for C6 as stated: outside genesis, a `CreateTokens`
transaction from a nonexistent sender fails with the sender-existence
error, not the token-creation error. -/
theorem create_tokens_outside_genesis_cex :
    cexGhostCreateTokens.execute Blockchain.new false =
      (Blockchain.new, Except.error "Account does not exist") ∧
    "Account does not exist" ≠ "Token creation is only available on initial creation" :=
  ⟨by decide, by decide⟩

/-- Witness for `create_tokens_outside_genesis` at a concrete input with an
existing sender. -/
theorem create_tokens_outside_genesis_witness :
    (Transaction.new "A" (TransactionData.CreateTokens "A" 5) 0 0).execute wsSingleA false =
      (wsSingleA, Except.error "Token creation is only available on initial creation") :=
  (create_tokens_outside_genesis _ wsSingleA "A" 5 rfl).2 (by decide)

/-- C3: `TransferTokens` computes the receiver's and the sender's new
balances with checked `u128` arithmetic; if either computation leaves the
`u128` range the execution fails with the single combined overspent-or-
arithmetic error and mutates nothing, and only when both succeed are both
balances written (sender debited first, receiver credited second). -/
theorem transfer_tokens_checked (t : Transaction) (ws : Blockchain) (to_ : String)
    (amount : Nat) (recv sender : Account) (g : Bool)
    (hrec : t.record = TransactionData.TransferTokens to_ amount)
    (hr : ws.get_account_by_id to_ = some recv)
    (hs : ws.get_account_by_id t.from_ = some sender) :
    (recv.tokens + amount < U128MOD → amount ≤ sender.tokens →
      t.execute ws g =
        ((ws.set_account_tokens t.from_ (sender.tokens - amount)).set_account_tokens to_
            (recv.tokens + amount),
          Except.ok ())) ∧
    (U128MOD ≤ recv.tokens + amount ∨ sender.tokens < amount →
      t.execute ws g = (ws, Except.error "Overspent or Arithmetic error")) := by
  constructor
  · intro h1 h2
    simp [Transaction.execute, hrec, hr, hs, u128checkedAdd, u128checkedSub, h1, h2]
  · intro h
    rcases h with h | h
    · simp [Transaction.execute, hrec, hr, hs, u128checkedAdd, u128checkedSub,
        Nat.not_lt.mpr h]
    · simp [Transaction.execute, hrec, hr, hs, u128checkedAdd, u128checkedSub,
        Nat.not_le.mpr h]

/-- Witness for `transfer_tokens_checked`: an overspend attempt fails with
the combined error and leaves the state unchanged. -/
theorem transfer_tokens_checked_witness :
    txOverspend.execute wsJohnMereep false =
      (wsJohnMereep, Except.error "Overspent or Arithmetic error") :=
  (transfer_tokens_checked txOverspend wsJohnMereep "Mereep" 100 (acctWith 10)
      (acctWith 50) false rfl (by decide) (by decide)).2 (by decide)

/-- C4: a self-transfer (receiver identity equal to the sender identity)
that passes the existence and range checks succeeds and leaves the account
with its old balance plus the amount — the debit is overwritten by the
credit, so tokens are created and supply is not conserved. -/
theorem self_transfer_creates_tokens (t : Transaction) (ws : Blockchain)
    (amount : Nat) (acct : Account) (g : Bool)
    (hrec : t.record = TransactionData.TransferTokens t.from_ amount)
    (ha : ws.get_account_by_id t.from_ = some acct)
    (hle : amount ≤ acct.tokens) (hov : acct.tokens + amount < U128MOD) :
    (t.execute ws g).2 = Except.ok () ∧
    (t.execute ws g).1.get_account_by_id t.from_ =
      some { acct with tokens := acct.tokens + amount } := by
  have hx : t.execute ws g =
      ((ws.set_account_tokens t.from_ (acct.tokens - amount)).set_account_tokens t.from_
          (acct.tokens + amount),
        Except.ok ()) := by
    simp [Transaction.execute, hrec, ha, u128checkedAdd, u128checkedSub, hov, hle]
  rw [hx]
  refine ⟨rfl, ?_⟩
  have ha2 : accountsGet ws.accounts t.from_ = some acct := ha
  simp [Blockchain.get_account_by_id, Blockchain.set_account_tokens,
    accountsGet_setTokens, ha2]

/-- Witness for `self_transfer_creates_tokens`: a concrete self-transfer of
20 on a balance of 50 ends at 70. -/
theorem self_transfer_creates_tokens_witness :
    (txSelf.execute wsJohnMereep false).2 = Except.ok () ∧
    (txSelf.execute wsJohnMereep false).1.get_account_by_id "John" =
      some (acctWith 70) :=
  self_transfer_creates_tokens txSelf wsJohnMereep 20 (acctWith 50) false rfl
    (by decide) (by decide) (by decide)

/-- A block whose first transaction succeeds (creating an account) and whose
second fails: exercises the rollback of partial effects. -/
def cexRollbackBlock : Block :=
  ((Block.new none).add_transaction
      (Transaction.new "John" (TransactionData.CreateUserAccount "John") 1 10)).add_transaction
    txOverspend

/-- C1: block-level atomicity of `append_block` — when a submitted block
passes the linkage and non-empty checks but its sequential execution fails
at the 0-based index `i` with reason `err`, the call returns the error
naming the 1-based index `i + 1` and `err`, and the ledger is returned
exactly as it was: the account map is restored from the snapshot (undoing
any partial effects of earlier transactions of the block) and the block is
not appended. -/
theorem append_block_atomic (bc : Blockchain) (block : Block) (bcf : Blockchain)
    (i : Nat) (err : String)
    (hlink : block.prev_hash = bc.get_last_block_hash)
    (hcnt : block.get_transaction_count ≠ 0)
    (hfail : bc.execTransactions block.transactions bc.blocks.isEmpty 0 =
      Except.error (bcf, i, err)) :
    bc.append_block block =
      (bc, Except.error
        s!"Could not execute transaction {i + 1} because of \x27{err}. Rolling back") := by
  obtain ⟨acc, hacc⟩ := execTransactions_err_fst _ _ _ _ _ _ _ hfail
  unfold Blockchain.append_block
  rw [if_neg (by simp [hlink]), if_neg hcnt, hfail, hacc]

/-- Witness for `append_block_atomic`: a two-transaction block whose first
transaction creates an account and whose second fails; the append reports
transaction 2 and returns the untouched empty ledger. -/
theorem append_block_atomic_witness :
    Blockchain.new.append_block cexRollbackBlock =
      (Blockchain.new, Except.error
        "Could not execute transaction 2 because of \x27Receiver Account does not exist!. Rolling back") :=
  append_block_atomic Blockchain.new cexRollbackBlock
    { Blockchain.new with accounts := [("John", Account.new AccountType.User)] }
    1 "Receiver Account does not exist!" (by decide) (by decide) (by decide)

/-! ## Validity preservation (C2) -/

/-- A block passing `verify_own_hash` stores exactly its recomputed hash. -/
theorem verify_own_hash_eq {b : Block} (h : b.verify_own_hash = true) :
    b.hash = some b.calculate_hash := by
  unfold Block.verify_own_hash at h
  cases hb : b.hash with
  | none => rw [hb] at h; exact absurd h (by simp)
  | some x => rw [hb] at h; simp only [beq_iff_eq] at h; rw [h]

/-- All-unsigned transactions pass the signature loop. -/
theorem sigLoop_all_unsigned (txs : List Transaction) (bn tn : Nat)
    (h : ∀ t ∈ txs, t.is_signed = false) : sigLoop txs bn tn = Except.ok () := by
  induction txs generalizing tn with
  | nil => rfl
  | cons t rest ih =>
    unfold sigLoop
    rw [h t (by simp)]
    exact ih (tn + 1) fun t2 ht2 => h t2 (by simp [ht2])

/-- The last stored hash ignores a dropped head. -/
theorem lastBlockHash_cons_cons (a b : Block) (l : List Block) :
    lastBlockHash (a :: b :: l) = lastBlockHash (b :: l) := by
  simp [lastBlockHash, List.getLast?_cons_cons]

/-- Inversion of one successful `checkLoop` step. -/
theorem checkLoop_cons_ok {prev block : Block} {n : Nat} {rest : List Block}
    (h : checkLoop prev n (block :: rest) = Except.ok ()) :
    block.verify_own_hash = true ∧ linkCheck prev block n = Except.ok () ∧
      sigLoop block.transactions n 0 = Except.ok () ∧
      checkLoop block (n + 1) rest = Except.ok () := by
  simp only [checkLoop] at h
  split at h
  · exact absurd h (by simp)
  · split at h
    · exact absurd h (by simp)
    · split at h
      · exact absurd h (by simp)
      · refine ⟨by simpa using ‹¬(!block.verify_own_hash) = true›, ?_, ?_, h⟩
        · rw [‹linkCheck prev block n = Except.ok PUnit.unit›]
        · rw [‹sigLoop block.transactions n 0 = Except.ok PUnit.unit›]

/-- One `checkLoop` step whose three checks pass recurses on the rest. -/
theorem checkLoop_cons_build {prev block : Block} {n : Nat} (rest : List Block)
    (h1 : block.verify_own_hash = true) (h2 : linkCheck prev block n = Except.ok ())
    (h3 : sigLoop block.transactions n 0 = Except.ok ()) :
    checkLoop prev n (block :: rest) = checkLoop block (n + 1) rest := by
  simp only [checkLoop, h1, h2, h3, Bool.not_true, Bool.false_eq_true, if_false]

/-- Inversion of the genesis step of `checkBlocksList`. -/
theorem checkBlocksList_cons_ok {b0 : Block} {rest : List Block}
    (h : checkBlocksList (b0 :: rest) = Except.ok ()) :
    b0.verify_own_hash = true ∧ b0.prev_hash.isSome = false ∧
      sigLoop b0.transactions 0 0 = Except.ok () ∧
      checkLoop b0 1 rest = Except.ok () := by
  simp only [checkBlocksList] at h
  split at h
  · exact absurd h (by simp)
  · split at h
    · exact absurd h (by simp)
    · split at h
      · exact absurd h (by simp)
      · refine ⟨by simpa using ‹¬(!b0.verify_own_hash) = true›,
          by simpa using ‹¬b0.prev_hash.isSome = true›, ?_, h⟩
        rw [‹sigLoop b0.transactions 0 0 = Except.ok PUnit.unit›]

/-- The genesis step of `checkBlocksList` whose checks pass recurses via
`checkLoop`. -/
theorem checkBlocksList_cons_build {b0 : Block} (rest : List Block)
    (h1 : b0.verify_own_hash = true) (h2 : b0.prev_hash.isSome = false)
    (h3 : sigLoop b0.transactions 0 0 = Except.ok ()) :
    checkBlocksList (b0 :: rest) = checkLoop b0 1 rest := by
  simp only [checkBlocksList, h1, h2, h3, Bool.not_true, Bool.false_eq_true, if_false]

/-- The `linkCheck` of a block pointing at a verified previous block
passes. -/
theorem linkCheck_ok {prev b : Block} {n : Nat}
    (hprev : prev.verify_own_hash = true) (hbp : b.prev_hash = prev.hash) :
    linkCheck prev b n = Except.ok () := by
  unfold linkCheck
  rw [hbp, verify_own_hash_eq hprev]
  simp

/-- Appending to the checked region a block that links to the tip, verifies
its own hash and carries no signed transaction keeps `checkLoop`
succeeding. -/
theorem checkLoop_append (rest : List Block) (prev : Block) (n : Nat) (b : Block)
    (hsig : ∀ t ∈ b.transactions, t.is_signed = false)
    (hver : b.verify_own_hash = true)
    (hprev : prev.verify_own_hash = true)
    (hok : checkLoop prev n rest = Except.ok ())
    (hlink : b.prev_hash = lastBlockHash (prev :: rest)) :
    checkLoop prev n (rest ++ [b]) = Except.ok () := by
  induction rest generalizing prev n with
  | nil =>
    have hbp : b.prev_hash = prev.hash := by
      simpa [lastBlockHash] using hlink
    rw [show ([] : List Block) ++ [b] = [b] from rfl,
      checkLoop_cons_build [] hver (linkCheck_ok hprev hbp)
        (sigLoop_all_unsigned b.transactions n 0 hsig)]
    rfl
  | cons x rest2 ih =>
    obtain ⟨hvx, hlc, hsg, hcl⟩ := checkLoop_cons_ok hok
    rw [show (x :: rest2) ++ [b] = x :: (rest2 ++ [b]) from rfl,
      checkLoop_cons_build (rest2 ++ [b]) hvx hlc hsg]
    exact ih x (n + 1) hvx hcl (by rw [hlink, lastBlockHash_cons_cons])

/-- Appending a well-linked, well-hashed, unsigned block to a chain that
passes `check_validity` keeps the full block-list check succeeding. -/
theorem checkBlocksList_append (l : List Block) (b : Block)
    (hok : checkBlocksList l = Except.ok ())
    (hlink : b.prev_hash = lastBlockHash l)
    (hver : b.verify_own_hash = true)
    (hsig : ∀ t ∈ b.transactions, t.is_signed = false) :
    checkBlocksList (l ++ [b]) = Except.ok () := by
  cases l with
  | nil =>
    have hbp : b.prev_hash = none := by simpa [lastBlockHash] using hlink
    simp [checkBlocksList, checkLoop, hver, hbp,
      sigLoop_all_unsigned b.transactions 0 0 hsig]
  | cons b0 rest =>
    obtain ⟨hv0, hp0, hsg, hcl⟩ := checkBlocksList_cons_ok hok
    rw [show (b0 :: rest) ++ [b] = b0 :: (rest ++ [b]) from rfl,
      checkBlocksList_cons_build (rest ++ [b]) hv0 hp0 hsg]
    exact checkLoop_append rest b0 1 b hsig hver hv0 hcl hlink

/-- What a successful `append_block` guarantees: the block linked to the
tip and the new block list is the old one with the block at the end. -/
theorem append_block_ok_elim (bc : Blockchain) (b : Block) (bc2 : Blockchain)
    (h : bc.append_block b = (bc2, Except.ok ())) :
    b.prev_hash = bc.get_last_block_hash ∧ bc2.blocks = bc.blocks ++ [b] := by
  simp only [Blockchain.append_block] at h
  by_cases h1 : b.prev_hash = bc.get_last_block_hash
  · rw [if_neg (not_not_intro h1)] at h
    by_cases h2 : b.get_transaction_count = 0
    · rw [if_pos h2] at h
      exact absurd h (by simp)
    · rw [if_neg h2] at h
      cases hex : bc.execTransactions b.transactions bc.blocks.isEmpty 0 with
      | error tr =>
        rcases tr with ⟨bcf, i, err⟩
        rw [hex] at h
        exact absurd h (by simp)
      | ok bcs =>
        rw [hex] at h
        obtain ⟨acc, hacc⟩ := execTransactions_ok_fst _ _ _ _ _ hex
        have hbc2 : bc2 = { bcs with blocks := bcs.blocks ++ [b] } := by
          have := congrArg Prod.fst h
          simpa using this.symm
        refine ⟨h1, ?_⟩
        rw [hbc2, hacc]
  · rw [if_pos h1] at h
    exact absurd h (by simp)

/-- Invariant form of the self-consistency argument: starting from a chain
that passes `check_validity`, any run of successful `append_block` calls on
well-hashed, unsigned blocks ends in a chain that passes
`check_validity`. -/
theorem appendAll_valid (bs : List Block) (bc0 bc : Blockchain)
    (h0 : bc0.check_validity = Except.ok ())
    (hgood : ∀ b ∈ bs, b.verify_own_hash = true ∧ ∀ t ∈ b.transactions, t.is_signed = false)
    (happ : bc0.appendAll bs = some bc) : bc.check_validity = Except.ok () := by
  induction bs generalizing bc0 with
  | nil =>
    unfold Blockchain.appendAll at happ
    cases happ
    exact h0
  | cons b rest ih =>
    unfold Blockchain.appendAll at happ
    rcases he : bc0.append_block b with ⟨bc1, r⟩
    rw [he] at happ
    cases r with
    | error e => exact absurd happ (by simp)
    | ok u =>
      cases u
      obtain ⟨hlink, hblocks⟩ := append_block_ok_elim bc0 b bc1 he
      have h1 : bc1.check_validity = Except.ok () := by
        show checkBlocksList bc1.blocks = Except.ok ()
        rw [hblocks]
        exact checkBlocksList_append bc0.blocks b h0 hlink (hgood b (by simp)).1
          (hgood b (by simp)).2
      exact ih bc1 h1 (fun b2 hb2 => hgood b2 (by simp [hb2])) happ

/-- A well-formed genesis block (built through the `Block` API, so its
stored hash is correct). -/
def goodBlock : Block :=
  (Block.new none).add_transaction
    (Transaction.new "John" (TransactionData.CreateUserAccount "John") 1 10)

/-- The same block with its (public) stored hash field wiped afterwards:
`append_block` never inspects the stored hash, so the append still
succeeds, but `check_validity` then fails. -/
def cexNoHashBlock : Block :=
  { goodBlock with hash := none }

/-- The ledger obtained by successfully appending `cexNoHashBlock`. -/
def cexNoHashChain : Blockchain :=
  (Blockchain.new.append_block cexNoHashBlock).1

/-- C2 (amended): `check_validity()` succeeds after any sequence of
successful `append_block` calls on a fresh chain, provided every submitted
block verifies its own stored hash and contains no signed transaction.
(Without the proviso the claim fails: see the counterexample, a block with
a corrupted stored hash appends successfully but fails validation, since
`append_block` never checks the submitted block's own hash.) -/
theorem check_validity_after_appends (bs : List Block) (bc : Blockchain)
    (hgood : ∀ b ∈ bs, b.verify_own_hash = true ∧ ∀ t ∈ b.transactions, t.is_signed = false)
    (happ : Blockchain.new.appendAll bs = some bc) :
    bc.check_validity = Except.ok () :=
  appendAll_valid bs Blockchain.new bc rfl hgood happ

/-- Counterexample for C2 as stated: one successful `append_block` call on
a fresh chain (the submitted block has a wiped stored-hash field, which
`append_block` does not inspect) yields a ledger on which
`check_validity()` fails. -/
theorem check_validity_after_appends_cex :
    Blockchain.new.appendAll [cexNoHashBlock] = some cexNoHashChain ∧
    cexNoHashChain.check_validity =
      Except.error "Stored hash for Block #1 does not match calculated hash" :=
  ⟨by decide, by decide⟩

/-- Witness for `check_validity_after_appends` at a concrete one-block
run. -/
theorem check_validity_after_appends_witness :
    ((Blockchain.new.append_block goodBlock).1).check_validity = Except.ok () :=
  check_validity_after_appends [goodBlock] _ (by decide) (by decide)

/-! ## Tamper detection (C8) -/

/-- Every block in the region checked by a successful `checkLoop` passes
`verify_own_hash`. -/
theorem checkLoop_verify_all {rest : List Block} {prev : Block} {n : Nat}
    (hok : checkLoop prev n rest = Except.ok ()) :
    ∀ (k : Nat) (b : Block), rest[k]? = some b → b.verify_own_hash = true := by
  induction rest generalizing prev n with
  | nil => intro k b hk; simp at hk
  | cons x rest2 ih =>
    obtain ⟨hvx, _, _, hcl⟩ := checkLoop_cons_ok hok
    intro k b hk
    cases k with
    | zero =>
      simp only [List.getElem?_cons_zero, Option.some.injEq] at hk
      rw [← hk]
      exact hvx
    | succ k2 => exact ih hcl k2 b (by simpa using hk)

/-- Every block of a chain passing `checkBlocksList` passes
`verify_own_hash`. -/
theorem checkBlocksList_verify_all {l : List Block}
    (hok : checkBlocksList l = Except.ok ()) :
    ∀ (k : Nat) (b : Block), l[k]? = some b → b.verify_own_hash = true := by
  cases l with
  | nil => intro k b hk; simp at hk
  | cons b0 rest =>
    obtain ⟨hv0, _, _, hcl⟩ := checkBlocksList_cons_ok hok
    intro k b hk
    cases k with
    | zero =>
      simp only [List.getElem?_cons_zero, Option.some.injEq] at hk
      rw [← hk]
      exact hv0
    | succ k2 => exact checkLoop_verify_all hcl k2 b (by simpa using hk)

/-- Replacing block `k` of a passing `checkLoop` region with a block that
fails `verify_own_hash` makes the loop stop there with the hash-mismatch
error naming that block. -/
theorem checkLoop_set_badhash {rest : List Block} {prev : Block} {n : Nat}
    (hok : checkLoop prev n rest = Except.ok ()) :
    ∀ (k : Nat) (b y : Block), rest[k]? = some b → y.verify_own_hash = false →
      checkLoop prev n (rest.set k y) =
        Except.error s!"Stored hash for Block #{n + k + 1} does not match calculated hash" := by
  induction rest generalizing prev n with
  | nil => intro k b y hk _; simp at hk
  | cons x rest2 ih =>
    intro k b y hk hy
    obtain ⟨hvx, hlc, hsg, hcl⟩ := checkLoop_cons_ok hok
    cases k with
    | zero =>
      show checkLoop prev n (y :: rest2) = _
      simp [checkLoop, hy]
    | succ k2 =>
      show checkLoop prev n (x :: rest2.set k2 y) = _
      rw [checkLoop_cons_build _ hvx hlc hsg]
      have heq : n + (k2 + 1) + 1 = n + 1 + k2 + 1 := by omega
      rw [heq]
      exact ih hcl k2 b y (by simpa using hk) hy

/-- Replacing block `k` of a chain passing `checkBlocksList` with a block
that fails `verify_own_hash` makes the whole check fail with the
hash-mismatch error naming block `k + 1`. -/
theorem checkBlocksList_set_badhash {l : List Block}
    (hok : checkBlocksList l = Except.ok ()) :
    ∀ (k : Nat) (b y : Block), l[k]? = some b → y.verify_own_hash = false →
      checkBlocksList (l.set k y) =
        Except.error s!"Stored hash for Block #{k + 1} does not match calculated hash" := by
  cases l with
  | nil => intro k b y hk _; simp at hk
  | cons b0 rest =>
    intro k b y hk hy
    obtain ⟨hv0, hp0, hsg, hcl⟩ := checkBlocksList_cons_ok hok
    cases k with
    | zero =>
      show checkBlocksList (y :: rest) = _
      simp only [checkBlocksList, hy, Bool.not_false, if_true]
      rfl
    | succ k2 =>
      show checkBlocksList (b0 :: rest.set k2 y) = _
      rw [checkBlocksList_cons_build _ hv0 hp0 hsg]
      have heq : k2 + 1 + 1 = 1 + k2 + 1 := by omega
      rw [heq]
      exact checkLoop_set_badhash hcl k2 b y (by simpa using hk) hy

/-- Overwriting the payload of transaction `j` of a block that passes
`verify_own_hash` (without recomputing the stored hash) makes
`verify_own_hash` fail: the symbolic digest is injective and the
transaction-digest list changes at position `j`. -/
theorem tampered_verify_false (b : Block) (j : Nat) (t : Transaction)
    (r : TransactionData)
    (hver : b.verify_own_hash = true)
    (ht : b.transactions[j]? = some t)
    (hr : r ≠ t.record) :
    ({ b with transactions := b.transactions.set j { t with record := r } } : Block).verify_own_hash
      = false := by
  have hh := verify_own_hash_eq hver
  have hj : j < b.transactions.length := (List.getElem?_eq_some.mp ht).1
  have hmapne :
      (b.transactions.map Transaction.calculate_hash).set j
          (Transaction.calculate_hash { t with record := r }) ≠
        b.transactions.map Transaction.calculate_hash := by
    intro heq
    have h1 : ((b.transactions.map Transaction.calculate_hash).set j
          (Transaction.calculate_hash { t with record := r }))[j]? =
        some (Transaction.calculate_hash { t with record := r }) := by
      rw [List.getElem?_set_self (by simpa using hj)]
    have h2 : (b.transactions.map Transaction.calculate_hash)[j]? =
        some (Transaction.calculate_hash t) := by
      rw [List.getElem?_map, ht]
      rfl
    rw [heq, h2] at h1
    have h3 := Option.some.inj h1
    apply hr
    simpa [Transaction.calculate_hash] using (congrArg TxHash.record h3).symm
  have hcalc :
      ({ b with transactions := b.transactions.set j { t with record := r } } : Block).calculate_hash
        ≠ b.calculate_hash := by
    unfold Block.calculate_hash
    dsimp only
    cases hp : b.prev_hash with
    | none => simp [hmapne]
    | some p => simp [hmapne]
  unfold Block.verify_own_hash
  dsimp only
  rw [hh]
  rw [beq_eq_false_iff_ne]
  exact Ne.symm hcalc

/-- The one-block ledger obtained by appending `goodBlock` to a fresh
chain. -/
def chainGood : Blockchain :=
  (Blockchain.new.append_block goodBlock).1

/-- The committed transaction of `goodBlock` with its payload overwritten. -/
def tamperedTxEve : Transaction :=
  { Transaction.new "John" (TransactionData.CreateUserAccount "John") 1 10 with
    record := TransactionData.CreateUserAccount "Eve" }

/-- `goodBlock` with its only transaction's payload overwritten afterwards
(the stored hash is left untouched). -/
def tamperedGoodBlock : Block :=
  { goodBlock with transactions := goodBlock.transactions.set 0 tamperedTxEve }

/-- C8: tamper detection — in a ledger that passes `check_validity`,
overwriting the payload of transaction `j` of committed block `k` (without
recomputing the stored hash) makes `verify_own_hash()` on that block
return `false`, and makes `check_validity()` on the mutated ledger fail
with the hash-mismatch error naming block `k + 1`. -/
theorem tamper_detection (bc : Blockchain) (k j : Nat) (b : Block) (t : Transaction)
    (r : TransactionData)
    (hvalid : bc.check_validity = Except.ok ())
    (hb : bc.blocks[k]? = some b)
    (ht : b.transactions[j]? = some t)
    (hr : r ≠ t.record) :
    ({ b with transactions := b.transactions.set j { t with record := r } } : Block).verify_own_hash
        = false ∧
    ({ bc with blocks := bc.blocks.set k { b with transactions := b.transactions.set j { t with record := r } } } : Blockchain).check_validity =
      Except.error s!"Stored hash for Block #{k + 1} does not match calculated hash" := by
  have hver := checkBlocksList_verify_all hvalid k b hb
  have hfalse := tampered_verify_false b j t r hver ht hr
  exact ⟨hfalse, checkBlocksList_set_badhash hvalid k b _ hb hfalse⟩

/-- Witness for `tamper_detection`: tampering with the only transaction of
the committed block of `chainGood`. -/
theorem tamper_detection_witness :
    tamperedGoodBlock.verify_own_hash = false ∧
    ({ chainGood with blocks := chainGood.blocks.set 0 tamperedGoodBlock } :
        Blockchain).check_validity =
      Except.error "Stored hash for Block #1 does not match calculated hash" :=
  tamper_detection chainGood 0 0 goodBlock
    (Transaction.new "John" (TransactionData.CreateUserAccount "John") 1 10)
    (TransactionData.CreateUserAccount "Eve") (by decide) (by decide) (by decide)
    (by decide)

end Rustchain
